import Mathlib

/-!
Verification of the reaction-diffusion simulation in `src/Main.c`
(pumbas600/DiffusionReaction).

The C program is embedded shallowly:

* C `float` arithmetic is modelled by exact rational arithmetic (`ℚ`); the
  claims under verification are about which formula each function computes,
  not about rounding of IEEE operations.
* A grid buffer (`Cell*`, indexed through `xyToIndex`) is modelled as a total
  function `ℤ → Cell`; a C store `grid[i] = v` becomes `Function.update`.
  The per-cell write loops become left folds over the list of loop indices in
  source order.
* The colour channels of LibBMP's `Colour` (byte fields, header not part of
  the sources) are modelled as integers; storing an `int` into a byte field
  reduces the value modulo 256, and the C `(byte)` cast of a non-negative
  float truncates (rounds towards zero).
* `startSimulation`'s interaction with the outside world (allocation,
  `DrawPixel`, `SaveBMPFile`) is modelled by the list of draw calls and the
  produced file names, plus an event trace for the allocation-failure claim.
-/

set_option maxRecDepth 2000

/-- Number of simulation iterations (`#define ITERATIONS 10000`). -/
def ITERATIONS : ℕ := 10000

/-- Snapshot interval (`#define IterationCapture 200`). -/
def IterationCapture : ℕ := 200

/-- Grid width (`#define WIDTH 600`). -/
def WIDTH : ℕ := 600

/-- Grid height (`#define HEIGHT 600`). -/
def HEIGHT : ℕ := 600

/-- Diffusion rate of chemical A (`#define DIFFUSION_RATE_A 1.0F`). -/
def DIFFUSION_RATE_A : ℚ := 1

/-- Diffusion rate of chemical B (`#define DIFFUSION_RATE_B 0.5F`). -/
def DIFFUSION_RATE_B : ℚ := 1/2

/-- Integration time step (`#define TIME_STEP 1.0F`). -/
def TIME_STEP : ℚ := 1

/-- Weight of the four orthogonal neighbours (`0.2F`). -/
def ADJACENT_NEIGHBOUR_WEIGHT : ℚ := 1/5

/-- Weight of the four diagonal neighbours (`0.05F`). -/
def DIAGONAL_NEIGHBOUR_WEIGHT : ℚ := 1/20

/-- Radius of the seeded centre circle (`#define CENTRE_CIRCLE_RADIUS 20`). -/
def CENTRE_CIRCLE_RADIUS : ℤ := 20

/-- Maximal kill rate (`#define KILL_RATE_MAX 0.062F`). -/
def KILL_RATE_MAX : ℚ := 62/1000

/-- Maximal feed rate (`#define FEED_RATE_MAX 0.0545F`). -/
def FEED_RATE_MAX : ℚ := 545/10000

/-- A grid cell: the two chemical concentrations (`struct { float a, b; }`). -/
structure Cell where
  a : ℚ
  b : ℚ
deriving DecidableEq

/-- A grid buffer: contents of a `Cell*` array, as a total map from the
integer index used by the program to the cell stored there. -/
abbrev Grid := ℤ → Cell

/-- Embeds `getKillRate` (Main.c line 65): spatially constant. -/
def getKillRate (x y : ℤ) : ℚ := KILL_RATE_MAX

/-- Embeds `getFeedRate` (Main.c line 70): spatially constant. -/
def getFeedRate (x y : ℤ) : ℚ := FEED_RATE_MAX

/-- Embeds `isWithinGrid` (Main.c line 75):
`x >= 0 && x < WIDTH && y >= 0 && y < HEIGHT`. -/
def isWithinGrid (x y : ℤ) : Prop :=
  0 ≤ x ∧ x < (WIDTH : ℤ) ∧ 0 ≤ y ∧ y < (HEIGHT : ℤ)

instance (x y : ℤ) : Decidable (isWithinGrid x y) := by
  unfold isWithinGrid; infer_instance

/-- Embeds `xyToIndex` (Main.c line 79): `x + y * WIDTH`. -/
def xyToIndex (x y : ℤ) : ℤ := x + y * (WIDTH : ℤ)

/-- The nine loop offsets of the double loop in
`calculateDifferenceBetweenCellAndNeighbours` (Main.c lines 85-86), in
source iteration order (`x` outer from -1 to 1, `y` inner from -1 to 1). -/
def loopOffsets : List (ℤ × ℤ) :=
  [(-1, -1), (-1, 0), (-1, 1), (0, -1), (0, 0), (0, 1), (1, -1), (1, 0), (1, 1)]

/-- The loop body of `calculateDifferenceBetweenCellAndNeighbours` (Main.c
lines 87-101), acting on the accumulated `difference` for one offset `d`. -/
def diffLoopBody (currentGrid : Grid) (cell : Cell) (xPos yPos : ℤ)
    (difference : Cell) (d : ℤ × ℤ) : Cell :=
  if d.1 = 0 ∧ d.2 = 0 then
    Cell.mk (difference.a - cell.a) (difference.b - cell.b)
  else
    let gridX := xPos + d.1
    let gridY := yPos + d.2
    if isWithinGrid gridX gridY then
      let gridCell := currentGrid (xyToIndex gridX gridY)
      let weight :=
        if d.1 = 0 ∨ d.2 = 0 then ADJACENT_NEIGHBOUR_WEIGHT
        else DIAGONAL_NEIGHBOUR_WEIGHT
      Cell.mk (difference.a + weight * gridCell.a)
              (difference.b + weight * gridCell.b)
    else difference

/-- Embeds `calculateDifferenceBetweenCellAndNeighbours` (Main.c lines
83-105): folds the loop body over the nine offsets, starting from the
difference `{0, 0}`. -/
def calculateDifferenceBetweenCellAndNeighbours
    (currentGrid : Grid) (cell : Cell) (xPos yPos : ℤ) : Cell :=
  loopOffsets.foldl (diffLoopBody currentGrid cell xPos yPos) (Cell.mk 0 0)

/-- Embeds `calculateNewValue` (Main.c lines 107-116); the C function writes
through the `newValue` pointer, modelled by returning the written cell. -/
def calculateNewValue (currentGrid : Grid) (x y : ℤ) : Cell :=
  let cell := currentGrid (xyToIndex x y)
  let difference := calculateDifferenceBetweenCellAndNeighbours currentGrid cell x y
  let reaction := cell.a * cell.b * cell.b
  let feedRate := getFeedRate x y
  let killRate := getKillRate x y
  Cell.mk
    (cell.a + (DIFFUSION_RATE_A * difference.a - reaction + feedRate * (1 - cell.a)) * TIME_STEP)
    (cell.b + (DIFFUSION_RATE_B * difference.b + reaction - (killRate + feedRate) * cell.b) * TIME_STEP)

/-- The cell coordinates visited by the double loops over the grid
(`for x in [0, WIDTH) { for y in [0, HEIGHT) ... }`), in source order. -/
def allCells : List (ℤ × ℤ) :=
  (List.range WIDTH).flatMap
    (fun x : ℕ => (List.range HEIGHT).map (fun y : ℕ => Prod.mk (x : ℤ) (y : ℤ)))

/-- The stores performed by the loop of `updateGrid` (Main.c lines 122-126):
each loop step stores `calculateNewValue(currentGrid, x, y)` into
`newGrid[xyToIndex(x, y)]`; returns the resulting contents of `newGrid`. -/
def updateGridWrites (currentGrid newGrid : Grid) : Grid :=
  allCells.foldl
    (fun g p => Function.update g (xyToIndex p.1 p.2) (calculateNewValue currentGrid p.1 p.2))
    newGrid

/-- Embeds `updateGrid` (Main.c lines 119-127). The C function mutates the
`newGrid` buffer in place and leaves `currentGrid` untouched; it is modelled
as an explicit state transformer on the pair (currentGrid, newGrid). -/
def updateGrid (currentGrid newGrid : Grid) : Grid × Grid :=
  (currentGrid, updateGridWrites currentGrid newGrid)

/-- Embeds `square` (Main.c line 129). -/
def square (x : ℤ) : ℤ := x * x

/-- Embeds `withinDistanceOfCentre` (Main.c line 133):
`square(x - WIDTH/2) + square(y - HEIGHT/2) < square(distance)`. -/
def withinDistanceOfCentre (x y distance : ℤ) : Prop :=
  square (x - (WIDTH : ℤ) / 2) + square (y - (HEIGHT : ℤ) / 2) < square distance

instance (x y d : ℤ) : Decidable (withinDistanceOfCentre x y d) := by
  unfold withinDistanceOfCentre; infer_instance

/-- The value stored by the loop body of `seedGrid` into cell (x, y). -/
def seedValue (x y : ℤ) : Cell :=
  if withinDistanceOfCentre x y CENTRE_CIRCLE_RADIUS then Cell.mk 0 1 else Cell.mk 1 0

/-- Embeds `seedGrid` (Main.c lines 138-153): stores `seedValue x y` into
`grid[xyToIndex(x, y)]` for every cell of the grid. -/
def seedGrid (currentGrid : Grid) : Grid :=
  allCells.foldl
    (fun g p => Function.update g (xyToIndex p.1 p.2) (seedValue p.1 p.2))
    currentGrid

/-- An RGB colour. LibBMP's `Colour` (header not among the sources) stores
three byte channels; they are modelled as integers, with the reduction
modulo 256 made explicit where the program stores into a channel. -/
structure Colour where
  red : ℤ
  green : ℤ
  blue : ℤ
deriving DecidableEq

/-- Embeds the constant `colourA` (Main.c line 56). -/
def colourA : Colour := Colour.mk 0 0 0

/-- Embeds the constant `colourB` (Main.c line 57). -/
def colourB : Colour := Colour.mk 50 230 255

/-- C truncation of a rational towards zero, the semantics of the C cast
`(byte)f` for a float value representable in the target type. -/
def ratTrunc (q : ℚ) : ℤ := if 0 ≤ q then ⌊q⌋ else ⌈q⌉

/-- Embeds `lerp` (Main.c lines 155-162):
`a->ch + (byte)((b->ch - a->ch) * t)` per channel, the result of the `int`
addition stored into a byte field (hence the reduction modulo 256). -/
def lerp (a b : Colour) (t : ℚ) : Colour :=
  Colour.mk
    ((a.red + ratTrunc ((↑b.red - ↑a.red) * t)) % 256)
    ((a.green + ratTrunc ((↑b.green - ↑a.green) * t)) % 256)
    ((a.blue + ratTrunc ((↑b.blue - ↑a.blue) * t)) % 256)

/-- One invocation of LibBMP's `DrawPixel`: the two integer arguments in the
order the program passes them, and the colour components. -/
structure DrawCall where
  firstArg : ℤ
  secondArg : ℤ
  colour : Colour
deriving DecidableEq

/-- Modelled from the spec: LibBMP's `DrawPixel` (its header is not among
the sources) takes the pixel x-coordinate (the raster column) as its first
argument and the pixel y-coordinate (the raster row) as its second argument.
With that convention the raster column written by a recorded call is its
first argument. -/
def pixelColumn (d : DrawCall) : ℤ := d.firstArg

/-- Modelled from the spec: the raster row written by a recorded `DrawPixel`
call is its second argument (see `pixelColumn`). -/
def pixelRow (d : DrawCall) : ℤ := d.secondArg

/-- Embeds the pixel loop of `saveSimulation` (Main.c lines 165-175): the
list of `DrawPixel` calls made, in source order. A cell whose concentration
sum is zero makes no call; every other cell (x, y) yields
`DrawPixel(y, x, lerp(colourA, colourB, b / (b + a)))`. -/
def saveSimulationDraws (currentGrid : Grid) : List DrawCall :=
  allCells.filterMap
    (fun p =>
      let cell := currentGrid (xyToIndex p.1 p.2)
      let denominator := cell.b + cell.a
      if denominator ≠ 0 then
        some (DrawCall.mk p.2 p.1 (lerp colourA colourB (cell.b / denominator)))
      else none)

/-- The file name built by `saveSimulation` (Main.c lines 176-181):
`"Output" + decimal iteration + ".bmp"`. -/
def outputFilename (iteration : ℕ) : String :=
  "Output" ++ toString iteration ++ ".bmp"

/-- Embeds `saveSimulation` (Main.c lines 164-183): its observable effect is
the list of draw calls it makes and the name of the file it saves. -/
def saveSimulation (currentGrid : Grid) (iteration : ℕ) : List DrawCall × String :=
  (saveSimulationDraws currentGrid, outputFilename iteration)

/-- Embeds `createGrid` (Main.c lines 185-188): `malloc` may fail (returning
NULL, modelled as `none`); a fresh allocation's contents are indeterminate,
modelled as zeroed cells. The function performs no NULL check. -/
def createGrid (allocOk : Bool) : Option Grid :=
  if allocOk then some (fun i => Cell.mk 0 0) else none

/-- The buffer pair (currentGrid, newGrid) after the first `n` iterations of
the loop in `startSimulation` (Main.c lines 198-211), starting from freshly
created buffers with the first seeded: even iterations run
`updateGrid(currentGrid, newGrid)`, odd iterations run
`updateGrid(newGrid, currentGrid)`. -/
def runBuffers (g0 g1 : Grid) : ℕ → Grid × Grid
  | 0 => (seedGrid g0, g1)
  | n + 1 =>
      let b := runBuffers g0 g1 n
      if n % 2 = 0 then updateGrid b.1 b.2
      else ((updateGrid b.2 b.1).2, (updateGrid b.2 b.1).1)

/-- The snapshot produced during loop iteration `i` of `startSimulation`
(Main.c lines 199-210): after the iteration's `updateGrid`, when
`i % IterationCapture == 0` the program saves `currentGrid` on even
iterations and `newGrid` on odd iterations; otherwise nothing is saved. -/
def snapshotAt (g0 g1 : Grid) (i : ℕ) : Option (List DrawCall × String) :=
  if i % IterationCapture = 0 then
    some (if i % 2 = 0 then saveSimulation (runBuffers g0 g1 (i + 1)).1 i
          else saveSimulation (runBuffers g0 g1 (i + 1)).2 i)
  else none

/-- The final save of `startSimulation` (Main.c line 212):
`saveSimulation(ITERATIONS % 2 == 0 ? currentGrid : newGrid, ITERATIONS)`. -/
def finalSave (g0 g1 : Grid) : List DrawCall × String :=
  if ITERATIONS % 2 = 0 then saveSimulation (runBuffers g0 g1 ITERATIONS).1 ITERATIONS
  else saveSimulation (runBuffers g0 g1 ITERATIONS).2 ITERATIONS

/-- Events observable in a run of `startSimulation`, for reasoning about the
allocation-failure path. Buffer-touching events record whether the buffer
they operate on was successfully allocated. -/
inductive SimEvent where
  | allocGrid (ok : Bool)
  | loadReference
  | seedEvent (targetAllocated : Bool)
  | updateEvent (sourceAllocated destinationAllocated : Bool)
  | saveEvent (sourceAllocated : Bool) (iteration : ℕ)
  | abortRun
deriving DecidableEq

/-- Embeds the straight-line control flow of `startSimulation` (Main.c lines
190-213) as an event trace, parametrised by whether each of the two
`createGrid` calls succeeds. The C function contains no NULL check, so every
buffer operation happens unconditionally; each event records whether the
buffer it touches was allocated. -/
def startSimulationEvents (alloc1 alloc2 : Bool) : List SimEvent :=
  let currentGrid := createGrid alloc1
  let newGrid := createGrid alloc2
  [SimEvent.allocGrid currentGrid.isSome, SimEvent.allocGrid newGrid.isSome,
   SimEvent.loadReference, SimEvent.seedEvent currentGrid.isSome]
  ++ (List.range ITERATIONS).flatMap
      (fun i =>
        if i % 2 = 0 then
          SimEvent.updateEvent currentGrid.isSome newGrid.isSome ::
            (if i % IterationCapture = 0 then [SimEvent.saveEvent currentGrid.isSome i] else [])
        else
          SimEvent.updateEvent newGrid.isSome currentGrid.isSome ::
            (if i % IterationCapture = 0 then [SimEvent.saveEvent newGrid.isSome i] else []))
  ++ [SimEvent.saveEvent
        (if ITERATIONS % 2 = 0 then currentGrid.isSome else newGrid.isSome) ITERATIONS]

/-!  Specification-side definitions, used to state the claims. -/

/-- The four orthogonally adjacent offsets. -/
def orthoNeighbours : List (ℤ × ℤ) := [(-1, 0), (1, 0), (0, -1), (0, 1)]

/-- The four diagonally adjacent offsets. -/
def diagNeighbours : List (ℤ × ℤ) := [(-1, -1), (-1, 1), (1, -1), (1, 1)]

/-- The eight neighbour offsets of the 3x3 stencil, centre excluded. -/
def neighbourOffsets : List (ℤ × ℤ) :=
  [(-1, -1), (-1, 0), (-1, 1), (0, -1), (0, 1), (1, -1), (1, 0), (1, 1)]

/-- Weighted sum of the A-components of the in-grid cells at the given
offsets from (x, y); out-of-grid offsets contribute nothing. -/
def weightedSumA (grid : Grid) (x y : ℤ) (w : ℚ) (l : List (ℤ × ℤ)) : ℚ :=
  (l.map (fun d =>
    if isWithinGrid (x + d.1) (y + d.2) then w * (grid (xyToIndex (x + d.1) (y + d.2))).a
    else 0)).sum

/-- Weighted sum of the B-components, as `weightedSumA`. -/
def weightedSumB (grid : Grid) (x y : ℤ) (w : ℚ) (l : List (ℤ × ℤ)) : ℚ :=
  (l.map (fun d =>
    if isWithinGrid (x + d.1) (y + d.2) then w * (grid (xyToIndex (x + d.1) (y + d.2))).b
    else 0)).sum

/-- The diffusion term as the specification words it: subtract the centre
cell once, add every in-grid orthogonal neighbour scaled by the adjacent
weight and every in-grid diagonal neighbour scaled by the diagonal weight. -/
def specNeighbourDifference (grid : Grid) (cell : Cell) (x y : ℤ) : Cell :=
  Cell.mk
    (-cell.a + weightedSumA grid x y ADJACENT_NEIGHBOUR_WEIGHT orthoNeighbours
             + weightedSumA grid x y DIAGONAL_NEIGHBOUR_WEIGHT diagNeighbours)
    (-cell.b + weightedSumB grid x y ADJACENT_NEIGHBOUR_WEIGHT orthoNeighbours
             + weightedSumB grid x y DIAGONAL_NEIGHBOUR_WEIGHT diagNeighbours)

/-- Number of in-grid neighbours of (x, y) among the eight stencil
positions: the neighbours that contribute to the diffusion term. -/
def contributingNeighbours (x y : ℤ) : ℕ :=
  (neighbourOffsets.filter (fun d => decide (isWithinGrid (x + d.1) (y + d.2)))).length

/-- Two buffers agree on every in-grid cell (out-of-range indices do not
correspond to memory the C program owns). -/
def gridEquiv (g g' : Grid) : Prop :=
  ∀ x y : ℤ, isWithinGrid x y → g (xyToIndex x y) = g' (xyToIndex x y)

/-- One whole-grid step as a pure function of a single buffer: what
`updateGrid` writes into the destination, ignoring the destination's prior
contents. -/
def advanceState (g : Grid) : Grid := (updateGrid g g).2

/-- The settled simulation state after `n` steps from the seeded grid. -/
def stateAt (g0 : Grid) (n : ℕ) : Grid := advanceState^[n] (seedGrid g0)

/-- Which of the two buffers holds the settled state after `n` completed
iterations of the driver loop: `currentGrid` when `n` is even, `newGrid`
when `n` is odd. -/
def settledBuffer (g0 g1 : Grid) (n : ℕ) : Grid :=
  if n % 2 = 0 then (runBuffers g0 g1 n).1 else (runBuffers g0 g1 n).2

/-- A concrete constant grid, used to instantiate universally quantified
statements at specific inputs. -/
def constGrid : Grid := fun i => Cell.mk 1 0

/-- A concrete all-zero grid. -/
def zeroGrid : Grid := fun i => Cell.mk 0 0

/-!  Index arithmetic and loop coverage. -/

lemma mem_allCells {p : ℤ × ℤ} : p ∈ allCells ↔ isWithinGrid p.1 p.2 := by
  obtain ⟨x, y⟩ := p
  constructor
  · intro hp
    obtain ⟨i, hi, hmem⟩ := List.mem_flatMap.mp hp
    obtain ⟨j, hj, hEq⟩ := List.mem_map.mp hmem
    injection hEq with h1 h2
    subst h1; subst h2
    have hi' : i < WIDTH := List.mem_range.mp hi
    have hj' : j < HEIGHT := List.mem_range.mp hj
    have hi600 : i < 600 := hi'
    have hj600 : j < 600 := hj'
    refine ⟨by omega, ?_, by omega, ?_⟩
    · show (i : ℤ) < ((600 : ℕ) : ℤ); omega
    · show (j : ℤ) < ((600 : ℕ) : ℤ); omega
  · intro hp
    obtain ⟨hx0, hxW, hy0, hyH⟩ := hp
    have hxW' : x < ((600 : ℕ) : ℤ) := hxW
    have hyH' : y < ((600 : ℕ) : ℤ) := hyH
    refine List.mem_flatMap.mpr ⟨x.toNat, List.mem_range.mpr ?_, ?_⟩
    · show x.toNat < 600; omega
    · refine List.mem_map.mpr ⟨y.toNat, List.mem_range.mpr ?_, ?_⟩
      · show y.toNat < 600; omega
      · have e1 : ((x.toNat : ℤ)) = x := Int.toNat_of_nonneg hx0
        have e2 : ((y.toNat : ℤ)) = y := Int.toNat_of_nonneg hy0
        rw [e1, e2]

attribute [irreducible] allCells

lemma xyToIndex_bounds {x y : ℤ} (h : isWithinGrid x y) :
    0 ≤ xyToIndex x y ∧ xyToIndex x y < (WIDTH : ℤ) * (HEIGHT : ℤ) := by
  simp only [isWithinGrid, WIDTH, HEIGHT] at h
  simp only [xyToIndex, WIDTH, HEIGHT]
  omega

lemma xyToIndex_inj {x y x' y' : ℤ} (h : isWithinGrid x y) (h' : isWithinGrid x' y')
    (heq : xyToIndex x y = xyToIndex x' y') : x = x' ∧ y = y' := by
  simp only [isWithinGrid, WIDTH, HEIGHT] at h h'
  simp only [xyToIndex, WIDTH, HEIGHT] at heq
  omega

/-!  Values of fold-of-store loops. -/

lemma foldl_update_out (f : ℤ × ℤ → Cell) (l : List (ℤ × ℤ)) (g : Grid) (i : ℤ)
    (h : ∀ p ∈ l, xyToIndex p.1 p.2 ≠ i) :
    (l.foldl (fun g p => Function.update g (xyToIndex p.1 p.2) (f p)) g) i = g i := by
  induction l generalizing g with
  | nil => rfl
  | cons q t ih =>
      simp only [List.foldl_cons]
      rw [ih _ (fun p hp => h p (List.mem_cons_of_mem _ hp))]
      exact Function.update_noteq (Ne.symm (h q (List.mem_cons_self q t))) _ _

lemma foldl_update_mem (f : ℤ × ℤ → Cell) (l : List (ℤ × ℤ)) (g : Grid) (p : ℤ × ℤ)
    (hp : p ∈ l) (huniq : ∀ q ∈ l, xyToIndex q.1 q.2 = xyToIndex p.1 p.2 → q = p) :
    (l.foldl (fun g q => Function.update g (xyToIndex q.1 q.2) (f q)) g) (xyToIndex p.1 p.2)
      = f p := by
  induction l generalizing g with
  | nil => cases hp
  | cons q t ih =>
      simp only [List.foldl_cons]
      by_cases hq : p ∈ t
      · exact ih _ hq (fun r hr => huniq r (List.mem_cons_of_mem _ hr))
      · have hpq : p = q := by
          rcases List.mem_cons.mp hp with h1 | h1
          · exact h1
          · exact absurd h1 hq
        subst hpq
        rw [foldl_update_out]
        · exact Function.update_same _ _ _
        · intro r hr hri
          exact hq (huniq r (List.mem_cons_of_mem _ hr) hri ▸ hr)

lemma seedGrid_apply (g : Grid) {x y : ℤ} (h : isWithinGrid x y) :
    seedGrid g (xyToIndex x y) = seedValue x y := by
  have hm : ((x, y) : ℤ × ℤ) ∈ allCells := mem_allCells.mpr h
  have hu : ∀ q ∈ allCells, xyToIndex q.1 q.2 = xyToIndex (x, y).1 (x, y).2 → q = (x, y) := by
    intro q hq hqi
    have hq' := mem_allCells.mp hq
    obtain ⟨h1, h2⟩ := xyToIndex_inj hq' h hqi
    exact Prod.ext h1 h2
  simpa using foldl_update_mem (fun p => seedValue p.1 p.2) allCells g (x, y) hm hu

lemma seedGrid_apply_out (g : Grid) {i : ℤ}
    (h : ∀ x y : ℤ, isWithinGrid x y → xyToIndex x y ≠ i) : seedGrid g i = g i := by
  exact foldl_update_out _ allCells g i
    (fun p hp => h p.1 p.2 (mem_allCells.mp hp))

lemma updateGrid_fst (c n : Grid) : (updateGrid c n).1 = c := rfl

lemma updateGrid_snd (c n : Grid) : (updateGrid c n).2 = updateGridWrites c n := rfl

lemma updateGridWrites_apply (c n : Grid) {x y : ℤ} (h : isWithinGrid x y) :
    updateGridWrites c n (xyToIndex x y) = calculateNewValue c x y := by
  have hm : ((x, y) : ℤ × ℤ) ∈ allCells := mem_allCells.mpr h
  have hu : ∀ q ∈ allCells, xyToIndex q.1 q.2 = xyToIndex (x, y).1 (x, y).2 → q = (x, y) := by
    intro q hq hqi
    have hq' := mem_allCells.mp hq
    obtain ⟨h1, h2⟩ := xyToIndex_inj hq' h hqi
    exact Prod.ext h1 h2
  simpa using foldl_update_mem (fun p => calculateNewValue c p.1 p.2) allCells n (x, y) hm hu

lemma updateGridWrites_apply_out (c n : Grid) {i : ℤ}
    (h : ∀ x y : ℤ, isWithinGrid x y → xyToIndex x y ≠ i) : updateGridWrites c n i = n i := by
  exact foldl_update_out _ allCells n i
    (fun p hp => h p.1 p.2 (mem_allCells.mp hp))

/-!  The diffusion stencil. -/

/-- What one loop step of the stencil adds to the A-component. -/
def contribA (g : Grid) (cell : Cell) (x y : ℤ) (d : ℤ × ℤ) : ℚ :=
  if d.1 = 0 ∧ d.2 = 0 then -cell.a
  else if isWithinGrid (x + d.1) (y + d.2) then
    (if d.1 = 0 ∨ d.2 = 0 then ADJACENT_NEIGHBOUR_WEIGHT else DIAGONAL_NEIGHBOUR_WEIGHT)
      * (g (xyToIndex (x + d.1) (y + d.2))).a
  else 0

/-- What one loop step of the stencil adds to the B-component. -/
def contribB (g : Grid) (cell : Cell) (x y : ℤ) (d : ℤ × ℤ) : ℚ :=
  if d.1 = 0 ∧ d.2 = 0 then -cell.b
  else if isWithinGrid (x + d.1) (y + d.2) then
    (if d.1 = 0 ∨ d.2 = 0 then ADJACENT_NEIGHBOUR_WEIGHT else DIAGONAL_NEIGHBOUR_WEIGHT)
      * (g (xyToIndex (x + d.1) (y + d.2))).b
  else 0

lemma diffLoopBody_char (g : Grid) (cell : Cell) (x y : ℤ) (acc : Cell) (d : ℤ × ℤ) :
    diffLoopBody g cell x y acc d
      = Cell.mk (acc.a + contribA g cell x y d) (acc.b + contribB g cell x y d) := by
  simp only [diffLoopBody, contribA, contribB]
  by_cases h1 : d.1 = 0 ∧ d.2 = 0
  · simp only [if_pos h1, Cell.mk.injEq]
    constructor <;> ring
  · simp only [if_neg h1]
    by_cases h2 : isWithinGrid (x + d.1) (y + d.2)
    · simp only [if_pos h2]
    · simp only [if_neg h2, add_zero]

lemma diff_foldl_char (g : Grid) (cell : Cell) (x y : ℤ) (l : List (ℤ × ℤ)) :
    ∀ acc : Cell,
      l.foldl (diffLoopBody g cell x y) acc
        = Cell.mk (acc.a + (l.map (contribA g cell x y)).sum)
                  (acc.b + (l.map (contribB g cell x y)).sum) := by
  induction l with
  | nil => intro acc; simp
  | cons d t ih =>
      intro acc
      rw [List.foldl_cons, ih, diffLoopBody_char]
      simp only [List.map_cons, List.sum_cons, Cell.mk.injEq]
      constructor <;> ring

lemma calcDiff_eq_spec (g : Grid) (cell : Cell) (x y : ℤ) :
    calculateDifferenceBetweenCellAndNeighbours g cell x y
      = specNeighbourDifference g cell x y := by
  rw [calculateDifferenceBetweenCellAndNeighbours, diff_foldl_char]
  simp only [specNeighbourDifference, weightedSumA, weightedSumB, loopOffsets,
    orthoNeighbours, diagNeighbours, contribA, contribB, List.map_cons, List.map_nil,
    List.sum_cons, List.sum_nil, Cell.mk.injEq]
  norm_num
  constructor <;> ring

/-!  Reads are confined to in-grid indices: congruence under `gridEquiv`. -/

lemma gridEquiv_refl (g : Grid) : gridEquiv g g := fun _ _ _ => rfl

lemma contribA_congr {g g' : Grid} (h : gridEquiv g g') (cell : Cell) (x y : ℤ)
    (d : ℤ × ℤ) : contribA g cell x y d = contribA g' cell x y d := by
  unfold contribA
  by_cases h1 : d.1 = 0 ∧ d.2 = 0
  · rw [if_pos h1, if_pos h1]
  · rw [if_neg h1, if_neg h1]
    by_cases h2 : isWithinGrid (x + d.1) (y + d.2)
    · rw [if_pos h2, if_pos h2, h _ _ h2]
    · rw [if_neg h2, if_neg h2]

lemma contribB_congr {g g' : Grid} (h : gridEquiv g g') (cell : Cell) (x y : ℤ)
    (d : ℤ × ℤ) : contribB g cell x y d = contribB g' cell x y d := by
  unfold contribB
  by_cases h1 : d.1 = 0 ∧ d.2 = 0
  · rw [if_pos h1, if_pos h1]
  · rw [if_neg h1, if_neg h1]
    by_cases h2 : isWithinGrid (x + d.1) (y + d.2)
    · rw [if_pos h2, if_pos h2, h _ _ h2]
    · rw [if_neg h2, if_neg h2]

lemma calcDiff_congr {g g' : Grid} (h : gridEquiv g g') (cell : Cell) (x y : ℤ) :
    calculateDifferenceBetweenCellAndNeighbours g cell x y
      = calculateDifferenceBetweenCellAndNeighbours g' cell x y := by
  rw [calculateDifferenceBetweenCellAndNeighbours, diff_foldl_char,
    calculateDifferenceBetweenCellAndNeighbours, diff_foldl_char]
  have ha : loopOffsets.map (contribA g cell x y) = loopOffsets.map (contribA g' cell x y) :=
    List.map_congr_left (fun d _ => contribA_congr h cell x y d)
  have hb : loopOffsets.map (contribB g cell x y) = loopOffsets.map (contribB g' cell x y) :=
    List.map_congr_left (fun d _ => contribB_congr h cell x y d)
  rw [ha, hb]

lemma calculateNewValue_congr {g g' : Grid} (h : gridEquiv g g') {x y : ℤ}
    (hxy : isWithinGrid x y) : calculateNewValue g x y = calculateNewValue g' x y := by
  unfold calculateNewValue
  simp only [h x y hxy, calcDiff_congr h]

lemma updateGridWrites_equiv {c c' : Grid} (h : gridEquiv c c') (a b : Grid) :
    gridEquiv (updateGridWrites c a) (updateGridWrites c' b) := by
  intro x y hxy
  rw [updateGridWrites_apply _ _ hxy, updateGridWrites_apply _ _ hxy,
    calculateNewValue_congr h hxy]

/-!  The seeded circle and Euclidean distance. -/

lemma sq_dist_lt_iff (a b r : ℤ) (hr : 0 < r) :
    a * a + b * b < r * r ↔ Real.sqrt ((a : ℝ)^2 + (b : ℝ)^2) < (r : ℝ) := by
  rw [Real.sqrt_lt' (by exact_mod_cast hr)]
  rw [pow_two, pow_two, pow_two]
  exact_mod_cast Iff.rfl

lemma withinDistance_iff_real (x y : ℤ) :
    withinDistanceOfCentre x y CENTRE_CIRCLE_RADIUS
      ↔ Real.sqrt (((x - (WIDTH : ℤ) / 2 : ℤ) : ℝ)^2 + ((y - (HEIGHT : ℤ) / 2 : ℤ) : ℝ)^2)
          < ((CENTRE_CIRCLE_RADIUS : ℤ) : ℝ) := by
  unfold withinDistanceOfCentre square
  exact sq_dist_lt_iff _ _ CENTRE_CIRCLE_RADIUS (by norm_num [CENTRE_CIRCLE_RADIUS])

/-!  The renderer's draw calls. -/

lemma mem_saveSimulationDraws {g : Grid} {d : DrawCall} :
    d ∈ saveSimulationDraws g
      ↔ ∃ x y : ℤ, isWithinGrid x y ∧
          (g (xyToIndex x y)).b + (g (xyToIndex x y)).a ≠ 0 ∧
          d = DrawCall.mk y x
                (lerp colourA colourB
                  ((g (xyToIndex x y)).b
                    / ((g (xyToIndex x y)).b + (g (xyToIndex x y)).a))) := by
  unfold saveSimulationDraws
  rw [List.mem_filterMap]
  constructor
  · rintro ⟨p, hp, hfp⟩
    have hpg := mem_allCells.mp hp
    dsimp only at hfp
    by_cases hden : (g (xyToIndex p.1 p.2)).b + (g (xyToIndex p.1 p.2)).a ≠ 0
    · rw [if_pos hden] at hfp
      exact ⟨p.1, p.2, hpg, hden, (Option.some.injEq .. ▸ hfp :).symm⟩
    · rw [if_neg hden] at hfp
      cases hfp
  · rintro ⟨x, y, hxy, hden, rfl⟩
    refine ⟨(x, y), mem_allCells.mpr hxy, ?_⟩
    dsimp only
    rw [if_pos hden]

lemma saveSimulationDraws_congr {g g' : Grid} (h : gridEquiv g g') :
    saveSimulationDraws g = saveSimulationDraws g' := by
  unfold saveSimulationDraws
  refine List.filterMap_congr (fun p hp => ?_)
  dsimp only
  rw [h p.1 p.2 (mem_allCells.mp hp)]

/-!  Byte truncation. -/

lemma ratTrunc_of_nonneg {q : ℚ} (h : 0 ≤ q) : ratTrunc q = ⌊q⌋ := if_pos h

lemma trunc_channel (c : ℤ) (t : ℚ) (hc0 : 0 ≤ c) (hc : c ≤ 255)
    (h0 : 0 ≤ t) (h1 : t ≤ 1) :
    (0 + ratTrunc ((c : ℚ) * t)) % 256 = ⌊(c : ℚ) * t⌋ := by
  have hprod0 : 0 ≤ (c : ℚ) * t := mul_nonneg (by exact_mod_cast hc0) h0
  rw [zero_add, ratTrunc_of_nonneg hprod0]
  have hf0 : 0 ≤ ⌊(c : ℚ) * t⌋ := Int.floor_nonneg.mpr hprod0
  have hle : (c : ℚ) * t ≤ ((c : ℤ) : ℚ) := by
    calc (c : ℚ) * t ≤ (c : ℚ) * 1 :=
          mul_le_mul_of_nonneg_left h1 (by exact_mod_cast hc0)
    _ = ((c : ℤ) : ℚ) := by ring
  have hfle : ⌊(c : ℚ) * t⌋ ≤ c := by
    have := Int.floor_le_floor hle
    rwa [Int.floor_intCast] at this
  exact Int.emod_eq_of_lt hf0 (by omega)

/-!  The driver loop: ping-pong buffers and settled state. -/

lemma advanceState_eq (g : Grid) : advanceState g = updateGridWrites g g := by
  unfold advanceState
  rw [updateGrid_snd]

lemma stateAt_zero (g0 : Grid) : stateAt g0 0 = seedGrid g0 := rfl

lemma stateAt_succ (g0 : Grid) (n : ℕ) : stateAt g0 (n + 1) = advanceState (stateAt g0 n) :=
  Function.iterate_succ_apply' _ _ _

lemma runBuffers_zero (g0 g1 : Grid) : runBuffers g0 g1 0 = (seedGrid g0, g1) := rfl

lemma runBuffers_succ_even (g0 g1 : Grid) (n : ℕ) (h : n % 2 = 0) :
    runBuffers g0 g1 (n + 1)
      = updateGrid (runBuffers g0 g1 n).1 (runBuffers g0 g1 n).2 := by
  rw [runBuffers]
  rw [if_pos h]

lemma runBuffers_succ_odd (g0 g1 : Grid) (n : ℕ) (h : n % 2 ≠ 0) :
    runBuffers g0 g1 (n + 1)
      = ((updateGrid (runBuffers g0 g1 n).2 (runBuffers g0 g1 n).1).2,
         (updateGrid (runBuffers g0 g1 n).2 (runBuffers g0 g1 n).1).1) := by
  rw [runBuffers]
  rw [if_neg h]

lemma settledBuffer_equiv (g0 g1 : Grid) : ∀ n : ℕ,
    gridEquiv (settledBuffer g0 g1 n) (stateAt g0 n) := by
  intro n
  induction n with
  | zero =>
      unfold settledBuffer
      rw [if_pos (by norm_num), runBuffers_zero, stateAt_zero]
      exact gridEquiv_refl _
  | succ n ih =>
      by_cases h : n % 2 = 0
      · have h1 : (n + 1) % 2 ≠ 0 := by omega
        unfold settledBuffer
        rw [if_neg h1, runBuffers_succ_even g0 g1 n h, updateGrid_snd]
        rw [stateAt_succ, advanceState_eq]
        apply updateGridWrites_equiv
        unfold settledBuffer at ih
        rwa [if_pos h] at ih
      · have h1 : (n + 1) % 2 = 0 := by omega
        unfold settledBuffer
        rw [if_pos h1, runBuffers_succ_odd g0 g1 n h, updateGrid_snd]
        rw [stateAt_succ, advanceState_eq]
        apply updateGridWrites_equiv
        unfold settledBuffer at ih
        rwa [if_neg h] at ih

/-!  The allocation-failure trace. -/

lemma seed_on_unallocated_mem :
    SimEvent.seedEvent false ∈ startSimulationEvents false true := by
  unfold startSimulationEvents createGrid
  simp

lemma abort_not_mem_events (a1 a2 : Bool) :
    SimEvent.abortRun ∉ startSimulationEvents a1 a2 := by
  intro hmem
  unfold startSimulationEvents at hmem
  rcases List.mem_append.mp hmem with hmem' | hfin
  · rcases List.mem_append.mp hmem' with hhead | hloop
    · exact absurd hhead (by simp)
    · obtain ⟨i, hi, hev⟩ := List.mem_flatMap.mp hloop
      by_cases hp : i % 2 = 0
      · rw [if_pos hp] at hev
        rcases List.mem_cons.mp hev with h1 | h2
        · exact SimEvent.noConfusion h1
        · by_cases hc : i % IterationCapture = 0
          · rw [if_pos hc] at h2
            exact SimEvent.noConfusion (List.mem_singleton.mp h2)
          · rw [if_neg hc] at h2
            exact List.not_mem_nil _ h2
      · rw [if_neg hp] at hev
        rcases List.mem_cons.mp hev with h1 | h2
        · exact SimEvent.noConfusion h1
        · by_cases hc : i % IterationCapture = 0
          · rw [if_pos hc] at h2
            exact SimEvent.noConfusion (List.mem_singleton.mp h2)
          · rw [if_neg hc] at h2
            exact List.not_mem_nil _ h2
  · exact SimEvent.noConfusion (List.mem_singleton.mp hfin)

lemma ratTrunc_intCast (n : ℤ) : ratTrunc ((n : ℤ) : ℚ) = n := by
  unfold ratTrunc
  by_cases h : (0 : ℚ) ≤ (n : ℚ)
  · rw [if_pos h, Int.floor_intCast]
  · rw [if_neg h, Int.ceil_intCast]

lemma lerp_zero : lerp colourA colourB 0 = colourA := by
  unfold lerp colourA colourB ratTrunc
  norm_num

lemma lerp_one : lerp colourA colourB 1 = colourB := by
  unfold lerp colourA colourB
  simp only [Colour.mk.injEq]
  norm_num
  refine ⟨?_, ?_, ?_⟩
  · have h := ratTrunc_intCast 50
    norm_num at h
    rw [h]
    decide
  · have h := ratTrunc_intCast 230
    norm_num at h
    rw [h]
    decide
  · have h := ratTrunc_intCast 255
    norm_num at h
    rw [h]
    decide

lemma lerp_formula (t : ℚ) (h0 : 0 ≤ t) (h1 : t ≤ 1) :
    lerp colourA colourB t
      = Colour.mk (colourA.red + ⌊((colourB.red - colourA.red : ℤ) : ℚ) * t⌋)
                  (colourA.green + ⌊((colourB.green - colourA.green : ℤ) : ℚ) * t⌋)
                  (colourA.blue + ⌊((colourB.blue - colourA.blue : ℤ) : ℚ) * t⌋) := by
  have h50 := trunc_channel 50 t (by norm_num) (by norm_num) h0 h1
  have h230 := trunc_channel 230 t (by norm_num) (by norm_num) h0 h1
  have h255 := trunc_channel 255 t (by norm_num) (by norm_num) h0 h1
  unfold lerp colourA colourB
  simp only [Colour.mk.injEq]
  norm_num
  norm_num at h50 h230 h255
  exact ⟨h50, h230, h255⟩

lemma contributingNeighbours_split (x y : ℤ) :
    contributingNeighbours x y =
      (if isWithinGrid (x + -1) (y + -1) then 1 else 0)
      + (if isWithinGrid (x + -1) (y + 0) then 1 else 0)
      + (if isWithinGrid (x + -1) (y + 1) then 1 else 0)
      + (if isWithinGrid (x + 0) (y + -1) then 1 else 0)
      + (if isWithinGrid (x + 0) (y + 1) then 1 else 0)
      + (if isWithinGrid (x + 1) (y + -1) then 1 else 0)
      + (if isWithinGrid (x + 1) (y + 0) then 1 else 0)
      + (if isWithinGrid (x + 1) (y + 1) then 1 else 0) := by
  unfold contributingNeighbours neighbourOffsets
  rw [← List.countP_eq_length_filter]
  simp only [List.countP_cons, List.countP_nil, decide_eq_true_eq]
  ring

/-!  Claims. -/

/-- The conclusion of claim C1 at one cell: both update formulas, with
(A, B) the cell's own pre-step value read from the current buffer,
reaction = A*B*B, diff the neighbour diffusion term, and f, k the feed and
kill rates looked up at (x, y). -/
def C1Prop (g : Grid) (x y : ℤ) : Prop :=
  (calculateNewValue g x y).a
      = (g (xyToIndex x y)).a
        + (DIFFUSION_RATE_A
             * (calculateDifferenceBetweenCellAndNeighbours g (g (xyToIndex x y)) x y).a
           - (g (xyToIndex x y)).a * (g (xyToIndex x y)).b * (g (xyToIndex x y)).b
           + getFeedRate x y * (1 - (g (xyToIndex x y)).a)) * TIME_STEP
  ∧ (calculateNewValue g x y).b
      = (g (xyToIndex x y)).b
        + (DIFFUSION_RATE_B
             * (calculateDifferenceBetweenCellAndNeighbours g (g (xyToIndex x y)) x y).b
           + (g (xyToIndex x y)).a * (g (xyToIndex x y)).b * (g (xyToIndex x y)).b
           - (getKillRate x y + getFeedRate x y) * (g (xyToIndex x y)).b) * TIME_STEP

/-- C1: for every in-grid cell (x, y), the per-cell update computes
newA = A + (diffusionRateA * diff.A - reaction + f*(1-A)) * dt and
newB = B + (diffusionRateB * diff.B + reaction - (k+f)*B) * dt, where (A, B)
are the cell's own pre-step concentrations read from the current buffer,
reaction = A*B*B, diff the neighbour diffusion term, and f, k the feed and
kill rates looked up at (x, y). -/
theorem claimC1 (g : Grid) (x y : ℤ) (h : isWithinGrid x y) : C1Prop g x y :=
  ⟨rfl, rfl⟩

/-- C1 witness at a concrete grid and cell. -/
theorem claimC1_witness : C1Prop constGrid 3 4 :=
  claimC1 constGrid 3 4 (by decide)

/-- The conclusion of claim C2 at one cell: the stencil equals the
specification's weighted sum over in-grid neighbours, and corner, edge and
interior cells have exactly 3, 5 and 8 contributing neighbours. -/
def C2Prop (g : Grid) (cell : Cell) (x y : ℤ) : Prop :=
  calculateDifferenceBetweenCellAndNeighbours g cell x y
      = specNeighbourDifference g cell x y
  ∧ (((x = 0 ∨ x = (WIDTH : ℤ) - 1) ∧ (y = 0 ∨ y = (HEIGHT : ℤ) - 1))
       → contributingNeighbours x y = 3)
  ∧ ((((x = 0 ∨ x = (WIDTH : ℤ) - 1) ∧ 0 < y ∧ y < (HEIGHT : ℤ) - 1)
       ∨ ((y = 0 ∨ y = (HEIGHT : ℤ) - 1) ∧ 0 < x ∧ x < (WIDTH : ℤ) - 1))
       → contributingNeighbours x y = 5)
  ∧ ((0 < x ∧ x < (WIDTH : ℤ) - 1 ∧ 0 < y ∧ y < (HEIGHT : ℤ) - 1)
       → contributingNeighbours x y = 8)

/-- C2: for every in-grid cell, the diffusion term subtracts the cell's own
(A, B) once, adds each in-grid orthogonal neighbour scaled by the adjacent
weight and each in-grid diagonal neighbour scaled by the diagonal weight,
and contributes nothing for out-of-grid positions; a corner cell has exactly
3 contributing neighbours, an edge cell 5, an interior cell 8. -/
theorem claimC2 (g : Grid) (cell : Cell) (x y : ℤ) (h : isWithinGrid x y) :
    C2Prop g cell x y := by
  refine ⟨calcDiff_eq_spec g cell x y, ?_, ?_, ?_⟩
  · rintro ⟨hx | hx, hy | hy⟩ <;> subst hx <;> subst hy <;> decide
  · intro hedge
    rw [contributingNeighbours_split]
    rcases hedge with ⟨hx | hx, hy1, hy2⟩ | ⟨hy | hy, hx1, hx2⟩
    · subst hx
      have hyb : 0 < y ∧ y < 599 := by
        refine ⟨hy1, ?_⟩
        simp only [HEIGHT] at hy2
        omega
      have c1 : ¬ isWithinGrid ((0 : ℤ) + -1) (y + -1) := by
        simp only [isWithinGrid, WIDTH, HEIGHT]; omega
      have c2 : ¬ isWithinGrid ((0 : ℤ) + -1) (y + 0) := by
        simp only [isWithinGrid, WIDTH, HEIGHT]; omega
      have c3 : ¬ isWithinGrid ((0 : ℤ) + -1) (y + 1) := by
        simp only [isWithinGrid, WIDTH, HEIGHT]; omega
      have c4 : isWithinGrid ((0 : ℤ) + 0) (y + -1) := by
        simp only [isWithinGrid, WIDTH, HEIGHT]; omega
      have c5 : isWithinGrid ((0 : ℤ) + 0) (y + 1) := by
        simp only [isWithinGrid, WIDTH, HEIGHT]; omega
      have c6 : isWithinGrid ((0 : ℤ) + 1) (y + -1) := by
        simp only [isWithinGrid, WIDTH, HEIGHT]; omega
      have c7 : isWithinGrid ((0 : ℤ) + 1) (y + 0) := by
        simp only [isWithinGrid, WIDTH, HEIGHT]; omega
      have c8 : isWithinGrid ((0 : ℤ) + 1) (y + 1) := by
        simp only [isWithinGrid, WIDTH, HEIGHT]; omega
      rw [if_neg c1, if_neg c2, if_neg c3, if_pos c4, if_pos c5, if_pos c6, if_pos c7, if_pos c8]
    · subst hx
      have hyb : 0 < y ∧ y < 599 := by
        refine ⟨hy1, ?_⟩
        simp only [HEIGHT] at hy2
        omega
      have c1 : isWithinGrid ((WIDTH : ℤ) - 1 + -1) (y + -1) := by
        simp only [isWithinGrid, WIDTH, HEIGHT]; omega
      have c2 : isWithinGrid ((WIDTH : ℤ) - 1 + -1) (y + 0) := by
        simp only [isWithinGrid, WIDTH, HEIGHT]; omega
      have c3 : isWithinGrid ((WIDTH : ℤ) - 1 + -1) (y + 1) := by
        simp only [isWithinGrid, WIDTH, HEIGHT]; omega
      have c4 : isWithinGrid ((WIDTH : ℤ) - 1 + 0) (y + -1) := by
        simp only [isWithinGrid, WIDTH, HEIGHT]; omega
      have c5 : isWithinGrid ((WIDTH : ℤ) - 1 + 0) (y + 1) := by
        simp only [isWithinGrid, WIDTH, HEIGHT]; omega
      have c6 : ¬ isWithinGrid ((WIDTH : ℤ) - 1 + 1) (y + -1) := by
        simp only [isWithinGrid, WIDTH, HEIGHT]; omega
      have c7 : ¬ isWithinGrid ((WIDTH : ℤ) - 1 + 1) (y + 0) := by
        simp only [isWithinGrid, WIDTH, HEIGHT]; omega
      have c8 : ¬ isWithinGrid ((WIDTH : ℤ) - 1 + 1) (y + 1) := by
        simp only [isWithinGrid, WIDTH, HEIGHT]; omega
      rw [if_pos c1, if_pos c2, if_pos c3, if_pos c4, if_pos c5, if_neg c6, if_neg c7, if_neg c8]
    · subst hy
      have hxb : 0 < x ∧ x < 599 := by
        refine ⟨hx1, ?_⟩
        simp only [WIDTH] at hx2
        omega
      have c1 : ¬ isWithinGrid (x + -1) ((0 : ℤ) + -1) := by
        simp only [isWithinGrid, WIDTH, HEIGHT]; omega
      have c2 : isWithinGrid (x + -1) ((0 : ℤ) + 0) := by
        simp only [isWithinGrid, WIDTH, HEIGHT]; omega
      have c3 : isWithinGrid (x + -1) ((0 : ℤ) + 1) := by
        simp only [isWithinGrid, WIDTH, HEIGHT]; omega
      have c4 : ¬ isWithinGrid (x + 0) ((0 : ℤ) + -1) := by
        simp only [isWithinGrid, WIDTH, HEIGHT]; omega
      have c5 : isWithinGrid (x + 0) ((0 : ℤ) + 1) := by
        simp only [isWithinGrid, WIDTH, HEIGHT]; omega
      have c6 : ¬ isWithinGrid (x + 1) ((0 : ℤ) + -1) := by
        simp only [isWithinGrid, WIDTH, HEIGHT]; omega
      have c7 : isWithinGrid (x + 1) ((0 : ℤ) + 0) := by
        simp only [isWithinGrid, WIDTH, HEIGHT]; omega
      have c8 : isWithinGrid (x + 1) ((0 : ℤ) + 1) := by
        simp only [isWithinGrid, WIDTH, HEIGHT]; omega
      rw [if_neg c1, if_pos c2, if_pos c3, if_neg c4, if_pos c5, if_neg c6, if_pos c7, if_pos c8]
    · subst hy
      have hxb : 0 < x ∧ x < 599 := by
        refine ⟨hx1, ?_⟩
        simp only [WIDTH] at hx2
        omega
      have c1 : isWithinGrid (x + -1) ((HEIGHT : ℤ) - 1 + -1) := by
        simp only [isWithinGrid, WIDTH, HEIGHT]; omega
      have c2 : isWithinGrid (x + -1) ((HEIGHT : ℤ) - 1 + 0) := by
        simp only [isWithinGrid, WIDTH, HEIGHT]; omega
      have c3 : ¬ isWithinGrid (x + -1) ((HEIGHT : ℤ) - 1 + 1) := by
        simp only [isWithinGrid, WIDTH, HEIGHT]; omega
      have c4 : isWithinGrid (x + 0) ((HEIGHT : ℤ) - 1 + -1) := by
        simp only [isWithinGrid, WIDTH, HEIGHT]; omega
      have c5 : ¬ isWithinGrid (x + 0) ((HEIGHT : ℤ) - 1 + 1) := by
        simp only [isWithinGrid, WIDTH, HEIGHT]; omega
      have c6 : isWithinGrid (x + 1) ((HEIGHT : ℤ) - 1 + -1) := by
        simp only [isWithinGrid, WIDTH, HEIGHT]; omega
      have c7 : isWithinGrid (x + 1) ((HEIGHT : ℤ) - 1 + 0) := by
        simp only [isWithinGrid, WIDTH, HEIGHT]; omega
      have c8 : ¬ isWithinGrid (x + 1) ((HEIGHT : ℤ) - 1 + 1) := by
        simp only [isWithinGrid, WIDTH, HEIGHT]; omega
      rw [if_pos c1, if_pos c2, if_neg c3, if_pos c4, if_neg c5, if_pos c6, if_pos c7, if_neg c8]
  · intro hint
    obtain ⟨hx1, hx2, hy1, hy2⟩ := hint
    rw [contributingNeighbours_split]
    · have hib : 0 < x ∧ x < 599 ∧ 0 < y ∧ y < 599 := by
        simp only [WIDTH] at hx2
        simp only [HEIGHT] at hy2
        omega
      have c1 : isWithinGrid (x + -1) (y + -1) := by
        simp only [isWithinGrid, WIDTH, HEIGHT]; omega
      have c2 : isWithinGrid (x + -1) (y + 0) := by
        simp only [isWithinGrid, WIDTH, HEIGHT]; omega
      have c3 : isWithinGrid (x + -1) (y + 1) := by
        simp only [isWithinGrid, WIDTH, HEIGHT]; omega
      have c4 : isWithinGrid (x + 0) (y + -1) := by
        simp only [isWithinGrid, WIDTH, HEIGHT]; omega
      have c5 : isWithinGrid (x + 0) (y + 1) := by
        simp only [isWithinGrid, WIDTH, HEIGHT]; omega
      have c6 : isWithinGrid (x + 1) (y + -1) := by
        simp only [isWithinGrid, WIDTH, HEIGHT]; omega
      have c7 : isWithinGrid (x + 1) (y + 0) := by
        simp only [isWithinGrid, WIDTH, HEIGHT]; omega
      have c8 : isWithinGrid (x + 1) (y + 1) := by
        simp only [isWithinGrid, WIDTH, HEIGHT]; omega
      rw [if_pos c1, if_pos c2, if_pos c3, if_pos c4, if_pos c5, if_pos c6, if_pos c7, if_pos c8]

/-- C2 witness at a concrete grid and cell. -/
theorem claimC2_witness : C2Prop constGrid (Cell.mk 1 0) 0 0 :=
  claimC2 constGrid (Cell.mk 1 0) 0 0 (by decide)

/-- The conclusion of claim C3 at one cell: the seeded value is (0, 1)
exactly inside the strict circle, (1, 0) otherwise, where the comparison is
equivalent to strict Euclidean distance to the grid centre; a cell at
distance exactly the radius is not seeded with B. -/
def C3Prop (g : Grid) (x y : ℤ) : Prop :=
  (seedGrid g (xyToIndex x y)
     = if withinDistanceOfCentre x y CENTRE_CIRCLE_RADIUS then Cell.mk 0 1 else Cell.mk 1 0)
  ∧ (seedGrid g (xyToIndex x y) = Cell.mk 0 1
       ↔ Real.sqrt (((x - (WIDTH : ℤ) / 2 : ℤ) : ℝ)^2 + ((y - (HEIGHT : ℤ) / 2 : ℤ) : ℝ)^2)
           < ((CENTRE_CIRCLE_RADIUS : ℤ) : ℝ))
  ∧ (Real.sqrt (((x - (WIDTH : ℤ) / 2 : ℤ) : ℝ)^2 + ((y - (HEIGHT : ℤ) / 2 : ℤ) : ℝ)^2)
       = ((CENTRE_CIRCLE_RADIUS : ℤ) : ℝ)
     → seedGrid g (xyToIndex x y) = Cell.mk 1 0)

/-- C3: seeding sets, for every cell (x, y), (A=0, B=1) exactly when the
Euclidean distance from (x, y) to the grid centre is strictly less than the
configured radius, and (A=1, B=0) otherwise; the comparison is strict, so a
cell at distance exactly the radius gets (A=1, B=0). -/
theorem claimC3 (g : Grid) (x y : ℤ) (h : isWithinGrid x y) : C3Prop g x y := by
  have hseed := seedGrid_apply g h
  refine ⟨?_, ?_, ?_⟩
  · rw [hseed]; rfl
  · rw [hseed]
    unfold seedValue
    constructor
    · intro he
      by_cases hc : withinDistanceOfCentre x y CENTRE_CIRCLE_RADIUS
      · exact (withinDistance_iff_real x y).mp hc
      · rw [if_neg hc] at he
        simp only [Cell.mk.injEq] at he
        exact absurd he.1 one_ne_zero
    · intro hr
      rw [if_pos ((withinDistance_iff_real x y).mpr hr)]
  · intro heq
    rw [hseed]
    unfold seedValue
    rw [if_neg (fun hc => ?_)]
    have := (withinDistance_iff_real x y).mp hc
    rw [heq] at this
    exact lt_irrefl _ this

/-- C3 witness at a concrete grid and cell. -/
theorem claimC3_witness : C3Prop constGrid 300 305 :=
  claimC3 constGrid 300 305 (by decide)

/-- The conclusion of claim C4: the source buffer is unchanged, every
in-grid cell of the destination is overwritten with a value computed from
the source buffer alone, and the result does not depend on the
destination's prior contents. -/
def C4Prop (cur next next' : Grid) (x y : ℤ) : Prop :=
  (updateGrid cur next).1 = cur
  ∧ (updateGrid cur next).2 (xyToIndex x y) = calculateNewValue cur x y
  ∧ (updateGrid cur next).2 (xyToIndex x y) = (updateGrid cur next').2 (xyToIndex x y)

/-- C4: the whole-grid step on distinct buffers reads only from the current
buffer and writes only into the next buffer: the source buffer equals its
pre-call state, every cell of the destination is overwritten with
`calculateNewValue` of the source, and no destination value influences any
computed result. -/
theorem claimC4 (cur next next' : Grid) (x y : ℤ) (h : isWithinGrid x y) :
    C4Prop cur next next' x y := by
  refine ⟨updateGrid_fst cur next, ?_, ?_⟩
  · rw [updateGrid_snd]
    exact updateGridWrites_apply cur next h
  · rw [updateGrid_snd, updateGrid_snd, updateGridWrites_apply cur next h,
      updateGridWrites_apply cur next' h]

/-- C4 witness at concrete buffers and a concrete cell. -/
theorem claimC4_witness : C4Prop constGrid zeroGrid constGrid 3 4 :=
  claimC4 constGrid zeroGrid constGrid 3 4 (by decide)

/-- The conclusion of claim C5 at one cell with concentrations (A, B) and
t = B / (A + B): the cell's draw call is emitted with the interpolated
colour, that colour is `channelA + floor((channelB - channelA) * t)` per
channel, and the two pure cells map exactly to the endpoint colours. -/
def C5Prop (g : Grid) (x y : ℤ) : Prop :=
  DrawCall.mk y x
      (lerp colourA colourB
        ((g (xyToIndex x y)).b / ((g (xyToIndex x y)).a + (g (xyToIndex x y)).b)))
    ∈ saveSimulationDraws g
  ∧ lerp colourA colourB
        ((g (xyToIndex x y)).b / ((g (xyToIndex x y)).a + (g (xyToIndex x y)).b))
      = Colour.mk
          (colourA.red
            + ⌊((colourB.red - colourA.red : ℤ) : ℚ)
                * ((g (xyToIndex x y)).b / ((g (xyToIndex x y)).a + (g (xyToIndex x y)).b))⌋)
          (colourA.green
            + ⌊((colourB.green - colourA.green : ℤ) : ℚ)
                * ((g (xyToIndex x y)).b / ((g (xyToIndex x y)).a + (g (xyToIndex x y)).b))⌋)
          (colourA.blue
            + ⌊((colourB.blue - colourA.blue : ℤ) : ℚ)
                * ((g (xyToIndex x y)).b / ((g (xyToIndex x y)).a + (g (xyToIndex x y)).b))⌋)
  ∧ ((g (xyToIndex x y)).a = 1 ∧ (g (xyToIndex x y)).b = 0
       → lerp colourA colourB
           ((g (xyToIndex x y)).b / ((g (xyToIndex x y)).a + (g (xyToIndex x y)).b))
         = colourA)
  ∧ ((g (xyToIndex x y)).a = 0 ∧ (g (xyToIndex x y)).b = 1
       → lerp colourA colourB
           ((g (xyToIndex x y)).b / ((g (xyToIndex x y)).a + (g (xyToIndex x y)).b))
         = colourB)

/-- C5: for every rendered cell with A + B different from 0 (and physical
non-negative concentrations), the pixel colour is computed per channel as
channelA + floor((channelB - channelA) * t) with t = B/(A+B), using integer
byte truncation; a cell with (A=1, B=0) maps exactly to colourA and a cell
with (A=0, B=1) maps exactly to colourB. -/
theorem claimC5 (g : Grid) (x y : ℤ) (h : isWithinGrid x y)
    (hA : 0 ≤ (g (xyToIndex x y)).a) (hB : 0 ≤ (g (xyToIndex x y)).b)
    (hne : (g (xyToIndex x y)).a + (g (xyToIndex x y)).b ≠ 0) : C5Prop g x y := by
  have hcomm : (g (xyToIndex x y)).a + (g (xyToIndex x y)).b
      = (g (xyToIndex x y)).b + (g (xyToIndex x y)).a := add_comm _ _
  have hne' : (g (xyToIndex x y)).b + (g (xyToIndex x y)).a ≠ 0 := by
    rw [← hcomm]; exact hne
  have hpos : 0 < (g (xyToIndex x y)).a + (g (xyToIndex x y)).b :=
    lt_of_le_of_ne (add_nonneg hA hB) (Ne.symm hne)
  have ht0 : 0 ≤ (g (xyToIndex x y)).b / ((g (xyToIndex x y)).a + (g (xyToIndex x y)).b) :=
    div_nonneg hB (le_of_lt hpos)
  have ht1 : (g (xyToIndex x y)).b / ((g (xyToIndex x y)).a + (g (xyToIndex x y)).b) ≤ 1 := by
    rw [div_le_one hpos]
    linarith
  refine ⟨?_, lerp_formula _ ht0 ht1, ?_, ?_⟩
  · rw [hcomm]
    exact mem_saveSimulationDraws.mpr ⟨x, y, h, hne', rfl⟩
  · rintro ⟨ha, hb⟩
    rw [ha, hb]
    norm_num
    exact lerp_zero
  · rintro ⟨ha, hb⟩
    rw [ha, hb]
    norm_num
    exact lerp_one

/-- C5 witness at a concrete grid and cell. -/
theorem claimC5_witness : C5Prop constGrid 3 4 :=
  claimC5 constGrid 3 4 (by decide) (by simp [constGrid]) (by simp [constGrid])
    (by simp [constGrid])

/-- C6: for every cell whose concentration sum is 0, the renderer makes no
draw call for that cell (the division is guarded by the denominator check),
for every grid state. -/
theorem claimC6 (g : Grid) (x y : ℤ) (h : isWithinGrid x y)
    (h0 : (g (xyToIndex x y)).b + (g (xyToIndex x y)).a = 0) :
    ∀ c : Colour, DrawCall.mk y x c ∉ saveSimulationDraws g := by
  intro c hc
  rw [mem_saveSimulationDraws] at hc
  obtain ⟨x', y', hxy', hden, heq⟩ := hc
  injection heq with h1 h2 h3
  subst h1
  subst h2
  exact hden h0

/-- C6 witness at a concrete all-zero grid. -/
theorem claimC6_witness : DrawCall.mk 4 3 (Colour.mk 0 0 0) ∉ saveSimulationDraws zeroGrid :=
  claimC6 zeroGrid 3 4 (by decide) (by simp [zeroGrid]) (Colour.mk 0 0 0)

/-- C7: when allocation of the first grid buffer fails, the run is not
aborted; the seeding operation is still performed, on the unallocated
buffer (Main.c has no NULL check after `createGrid`). This evaluates the
code at the failing input of the code_bug verdict for this claim. -/
theorem claimC7 :
    SimEvent.seedEvent false ∈ startSimulationEvents false true
    ∧ SimEvent.abortRun ∉ startSimulationEvents false true :=
  ⟨seed_on_unallocated_mem, abort_not_mem_events false true⟩

/-- The conclusion of claim C8 at iteration i: a snapshot is produced
exactly at multiples of the capture interval and its draw calls are those
of the settled i-step state; file names are prefix + decimal index +
suffix; the buffer not written this iteration is the one that was current;
and the final save renders the settled ITERATIONS-step state. -/
def C8Prop (g0 g1 : Grid) (i : ℕ) : Prop :=
  (i % IterationCapture = 0 →
     snapshotAt g0 g1 i = some (saveSimulationDraws (stateAt g0 i), outputFilename i))
  ∧ (i % IterationCapture ≠ 0 → snapshotAt g0 g1 i = none)
  ∧ outputFilename i = "Output" ++ toString i ++ ".bmp"
  ∧ (i % 2 = 0 → (runBuffers g0 g1 (i + 1)).1 = (runBuffers g0 g1 i).1)
  ∧ (i % 2 ≠ 0 → (runBuffers g0 g1 (i + 1)).2 = (runBuffers g0 g1 i).2)
  ∧ finalSave g0 g1 = (saveSimulationDraws (stateAt g0 ITERATIONS), outputFilename ITERATIONS)

/-- C8: the driver alternates which buffer is current every iteration
(ping-pong); a run produces one snapshot per captured iteration (indices
divisible by the interval, starting at 0) plus a final artifact at the last
completed iteration, each named prefix + decimal index + suffix, and every
snapshot, the final one included, is rendered from the buffer holding the
settled state for that iteration. -/
theorem claimC8 (g0 g1 : Grid) (i : ℕ) (hi : i < ITERATIONS) : C8Prop g0 g1 i := by
  have hsettled : ∀ n : ℕ, gridEquiv (settledBuffer g0 g1 n) (stateAt g0 n) :=
    settledBuffer_equiv g0 g1
  refine ⟨?_, ?_, rfl, ?_, ?_, ?_⟩
  · intro hc
    unfold snapshotAt
    rw [if_pos hc]
    by_cases hp : i % 2 = 0
    · rw [if_pos hp]
      unfold saveSimulation
      have hfst : (runBuffers g0 g1 (i + 1)).1 = (runBuffers g0 g1 i).1 := by
        rw [runBuffers_succ_even g0 g1 i hp, updateGrid_fst]
      rw [hfst]
      have hs := hsettled i
      unfold settledBuffer at hs
      rw [if_pos hp] at hs
      rw [saveSimulationDraws_congr hs]
    · rw [if_neg hp]
      unfold saveSimulation
      have hsnd : (runBuffers g0 g1 (i + 1)).2 = (runBuffers g0 g1 i).2 := by
        rw [runBuffers_succ_odd g0 g1 i hp]
        show (updateGrid (runBuffers g0 g1 i).2 (runBuffers g0 g1 i).1).1
          = (runBuffers g0 g1 i).2
        exact updateGrid_fst _ _
      rw [hsnd]
      have hs := hsettled i
      unfold settledBuffer at hs
      rw [if_neg hp] at hs
      rw [saveSimulationDraws_congr hs]
  · intro hc
    unfold snapshotAt
    rw [if_neg hc]
  · intro hp
    rw [runBuffers_succ_even g0 g1 i hp, updateGrid_fst]
  · intro hp
    rw [runBuffers_succ_odd g0 g1 i hp]
    show (updateGrid (runBuffers g0 g1 i).2 (runBuffers g0 g1 i).1).1
      = (runBuffers g0 g1 i).2
    exact updateGrid_fst _ _
  · have heven : ITERATIONS % 2 = 0 := by decide
    unfold finalSave
    rw [if_pos heven]
    unfold saveSimulation
    have hs := hsettled ITERATIONS
    unfold settledBuffer at hs
    rw [if_pos heven] at hs
    rw [saveSimulationDraws_congr hs]

/-- C8 witness at concrete buffers and iteration 0. -/
theorem claimC8_witness : C8Prop constGrid zeroGrid 0 :=
  claimC8 constGrid zeroGrid 0 (by decide)

/-- The conclusion of claim C9: every draw call made by the renderer for a
cell (x, y) targets the pixel with row x and column y (the transpose of the
grid's own indexing), and every rendered cell gets such a call. -/
def C9Prop (g : Grid) : Prop :=
  (∀ d ∈ saveSimulationDraws g,
     isWithinGrid (pixelRow d) (pixelColumn d)
     ∧ (g (xyToIndex (pixelRow d) (pixelColumn d))).b
         + (g (xyToIndex (pixelRow d) (pixelColumn d))).a ≠ 0
     ∧ d.colour = lerp colourA colourB
         ((g (xyToIndex (pixelRow d) (pixelColumn d))).b
           / ((g (xyToIndex (pixelRow d) (pixelColumn d))).b
              + (g (xyToIndex (pixelRow d) (pixelColumn d))).a)))
  ∧ (∀ x y : ℤ, isWithinGrid x y →
       (g (xyToIndex x y)).b + (g (xyToIndex x y)).a ≠ 0 →
       ∃ c : Colour, DrawCall.mk y x c ∈ saveSimulationDraws g
         ∧ pixelRow (DrawCall.mk y x c) = x ∧ pixelColumn (DrawCall.mk y x c) = y)

/-- C9: for every rendered cell, the renderer maps cell (x, y) to pixel
(row = x, column = y) in the output raster, i.e. the pixel-draw
collaborator is invoked with the coordinates transposed relative to the
grid's own indexing. -/
theorem claimC9 (g : Grid) : C9Prop g := by
  constructor
  · intro d hd
    rw [mem_saveSimulationDraws] at hd
    obtain ⟨x, y, hxy, hden, heq⟩ := hd
    subst heq
    exact ⟨hxy, hden, rfl⟩
  · intro x y hxy hden
    exact ⟨_, mem_saveSimulationDraws.mpr ⟨x, y, hxy, hden, rfl⟩, rfl, rfl⟩

/-- C9 witness at a concrete grid. -/
theorem claimC9_witness :
    ∃ c : Colour, DrawCall.mk 4 3 c ∈ saveSimulationDraws constGrid
      ∧ pixelRow (DrawCall.mk 4 3 c) = 3 ∧ pixelColumn (DrawCall.mk 4 3 c) = 4 :=
  (claimC9 constGrid).2 3 4 (by decide) (by simp [constGrid])

/-- The conclusion of claim C10: grid indices of in-grid cells lie in
[0, WIDTH*HEIGHT); the per-cell update and the renderer depend only on
in-grid contents of their input buffer (all their reads are guarded); and
seeding and the whole-grid step write only in-grid indices. -/
def C10Prop : Prop :=
  (∀ x y : ℤ, isWithinGrid x y →
     0 ≤ xyToIndex x y ∧ xyToIndex x y < (WIDTH : ℤ) * (HEIGHT : ℤ))
  ∧ (∀ g g' : Grid, gridEquiv g g' → ∀ x y : ℤ, isWithinGrid x y →
       calculateNewValue g x y = calculateNewValue g' x y)
  ∧ (∀ g g' : Grid, gridEquiv g g' → saveSimulationDraws g = saveSimulationDraws g')
  ∧ (∀ g : Grid, ∀ i : ℤ, (∀ x y : ℤ, isWithinGrid x y → xyToIndex x y ≠ i) →
       seedGrid g i = g i ∧ ∀ cur : Grid, (updateGrid cur g).2 i = g i)

/-- C10: for every in-grid (x, y) the index x + y*WIDTH lies in
[0, WIDTH*HEIGHT), and every grid access performed by seeding, the
neighbour-difference computation, the per-cell update and rendering uses an
in-range index (neighbour positions are guarded by the in-grid check), so
no grid access is out of bounds. -/
theorem claimC10 : C10Prop := by
  refine ⟨?_, ?_, ?_, ?_⟩
  · intro x y h
    exact xyToIndex_bounds h
  · intro g g' h x y hxy
    exact calculateNewValue_congr h hxy
  · intro g g' h
    exact saveSimulationDraws_congr h
  · intro g i h
    refine ⟨seedGrid_apply_out g h, ?_⟩
    intro cur
    rw [updateGrid_snd]
    exact updateGridWrites_apply_out cur g h

/-- C10 witness: the index bound at a concrete in-grid cell. -/
theorem claimC10_witness :
    0 ≤ xyToIndex 3 4 ∧ xyToIndex 3 4 < (WIDTH : ℤ) * (HEIGHT : ℤ) :=
  claimC10.1 3 4 (by decide)
